import Mathlib

/-!
Shallow embedding of `@vue-spark/back-handler` (src/src/use-back-handler.ts):
the `BackHandler` static registry (stack, init/destroy/push/remove/onBackPress/
install) and the `useBackHandler` scoped composable.

Modelling conventions:
- A `BackHandlerEntry` is identified by reference identity in JS; here each
  entry carries a numeric `id` so distinct objects are distinct values, and an
  entry's handler is modelled by the outcome of invoking it once
  (`HandlerResult`): resolve with no value / `true` / `false`, or reject.
- Observable side effects (fallback call, observer calls, handler invocation,
  `console.warn`, the `bind` callback of `install`) are recorded as an event
  trace.
- A thrown/rejected error escaping an operation is modelled by the `error`
  field of `OpResult` (`none` = the call completes/resolves normally).
- The optional `onPush`/`onRemove` observers are modelled as functions from
  the entry to `ObsBehavior`: whether that particular observer invocation
  returns normally or throws.
-/

/-- Outcome of invoking an entry's `handler()` once, after `await`:
`resolves none` = resolved with no value (`undefined`), `resolves (some b)` =
resolved with boolean `b`, `rejects` = the (possibly async) result rejected. -/
inductive HandlerResult where
  | resolves (v : Option Bool)
  | rejects
deriving DecidableEq, Repr

/-- A stack entry (`BackHandlerEntry`). `id` models JS reference identity. -/
structure BackHandlerEntry where
  id : Nat
  handler : HandlerResult
deriving DecidableEq, Repr

/-- Behaviour of one observer invocation: return normally or throw. -/
inductive ObsBehavior where
  | ok
  | throws
deriving DecidableEq, Repr

/-- `BackHandlerOptions`: `fallbackId` models the identity of the configured
`fallback` function; `onPush`/`onRemove` are the optional observers, each
modelled by how it behaves on a given entry. -/
structure BackHandlerOptions where
  fallbackId : Nat
  onPush : Option (BackHandlerEntry → ObsBehavior) := none
  onRemove : Option (BackHandlerEntry → ObsBehavior) := none

/-- Observable events emitted by registry operations. -/
inductive Event where
  | fallbackCalled
  | onPushCalled (e : BackHandlerEntry)
  | onRemoveCalled (e : BackHandlerEntry)
  | handlerInvoked (e : BackHandlerEntry)
  | warned
  | bindCalled
deriving DecidableEq, Repr

/-- Errors that can escape a registry operation. -/
inductive BError where
  | notInitialized
  | observerError
deriving DecidableEq, Repr

/-- The static state of the `BackHandler` class: `stack`, the private
`_options`, and `isInitialized`. -/
structure BackHandlerState where
  stack : List BackHandlerEntry
  _options : Option BackHandlerOptions
  isInitialized : Bool

/-- Result of one registry operation: the new static state, the events
emitted, and the error that escaped the call, if any. -/
structure OpResult where
  state : BackHandlerState
  events : List Event
  error : Option BError

/-- The `options` getter: throws `BackHandler is not initialized!` when
`_options` is null. -/
def optionsGet (s : BackHandlerState) : Except BError BackHandlerOptions :=
  match s._options with
  | none => .error .notInitialized
  | some o => .ok o

/-- `BackHandler.init(options)`: warns and returns if already initialized,
otherwise sets the flag and stores the options. -/
def init (s : BackHandlerState) (options : BackHandlerOptions) :
    BackHandlerState × List Event :=
  if s.isInitialized then
    (s, [.warned])
  else
    ({ s with isInitialized := true, _options := some options }, [])

/-- `BackHandler.destroy()`: unconditionally clears stack, options and flag. -/
def destroy (_s : BackHandlerState) : BackHandlerState :=
  { stack := [], _options := none, isInitialized := false }

/-- `BackHandler.push(entry)`: appends to the stack, then reads `options`
(which may throw) and invokes `onPush` when configured. -/
def push (s : BackHandlerState) (entry : BackHandlerEntry) : OpResult :=
  let s1 := { s with stack := s.stack ++ [entry] }
  match optionsGet s1 with
  | .error err => ⟨s1, [], some err⟩
  | .ok opts =>
    match opts.onPush with
    | none => ⟨s1, [], none⟩
    | some f =>
      ⟨s1, [.onPushCalled entry],
        if f entry = .throws then some .observerError else none⟩

/-- `BackHandler.remove(entry)`: `indexOf` from the start; when found,
`splice(index, 1)`, then reads `options` (which may throw) and invokes
`onRemove` when configured. When absent, a silent no-op. -/
def remove (s : BackHandlerState) (entry : BackHandlerEntry) : OpResult :=
  let index := s.stack.indexOf entry
  if index < s.stack.length then
    let s1 := { s with stack := s.stack.eraseIdx index }
    match optionsGet s1 with
    | .error err => ⟨s1, [], some err⟩
    | .ok opts =>
      match opts.onRemove with
      | none => ⟨s1, [], none⟩
      | some f =>
        ⟨s1, [.onRemoveCalled entry],
          if f entry = .throws then some .observerError else none⟩
  else
    ⟨s, [], none⟩

/-- `BackHandler.onBackPress()`: dispatch one back signal. Non-empty stack:
read the top entry by index `length - 1`, invoke its handler inside
`try`/`catch`; a result other than `false` triggers `this.remove(entry)`
(still inside the `try`, so any error from the removal path is swallowed);
`false` or rejection keeps the entry. Empty stack: `this.options.fallback()`
(the getter may throw; this path is outside the `try`). -/
def onBackPress (s : BackHandlerState) : OpResult :=
  if s.stack.length ≠ 0 then
    match s.stack[s.stack.length - 1]? with
    | some entry =>
      match entry.handler with
      | .rejects => ⟨s, [.handlerInvoked entry], none⟩
      | .resolves v =>
        if v ≠ some false then
          let r := remove s entry
          ⟨r.state, .handlerInvoked entry :: r.events, none⟩
        else
          ⟨s, [.handlerInvoked entry], none⟩
    | none => ⟨s, [], none⟩
  else
    match optionsGet s with
    | .error err => ⟨s, [], some err⟩
    | .ok _ => ⟨s, [.fallbackCalled], none⟩

/-- `BackHandler.install(app, options)`: returns immediately (no warning)
when already initialized; otherwise `init`, then invokes `options.bind`. -/
def install (s : BackHandlerState) (options : BackHandlerOptions) :
    BackHandlerState × List Event :=
  if s.isInitialized then
    (s, [])
  else
    let r := init s options
    (r.1, r.2 ++ [.bindCalled])

/-- Local state of one `useBackHandler` call site: the owned entry, if any. -/
structure UseBackHandlerState where
  entry : Option BackHandlerEntry
deriving Repr

/-- Result of a scoped (`useBackHandler`) operation. -/
structure ScopedResult where
  reg : BackHandlerState
  scope : UseBackHandlerState
  events : List Event
  error : Option BError

/-- The composable's `remove()`: when an entry is owned, `BackHandler.remove`
it and then clear the local reference (`entry = null`). The clearing runs
after the removal call, so when `BackHandler.remove` throws, the assignment
is skipped and the binding still owns the entry. -/
def scopedRemove (reg : BackHandlerState) (u : UseBackHandlerState) :
    ScopedResult :=
  match u.entry with
  | some e =>
    let r := remove reg e
    ⟨r.state, if r.error = none then ⟨none⟩ else u, r.events, r.error⟩
  | none => ⟨reg, u, [], none⟩

/-- The composable's `push()`: create a fresh entry `{ handler: onHide }`
(fresh identity `freshId`), store it locally, and `BackHandler.push` it. -/
def scopedPush (reg : BackHandlerState) (_u : UseBackHandlerState)
    (freshId : Nat) (onHide : HandlerResult) : ScopedResult :=
  let e : BackHandlerEntry := ⟨freshId, onHide⟩
  let r := push reg e
  ⟨r.state, ⟨some e⟩, r.events, r.error⟩

/-- The `onScopeDispose` callback: `toValue(showing) && remove()`, where
`showing` is the visibility source's value at disposal time. -/
def scopedDispose (reg : BackHandlerState) (u : UseBackHandlerState)
    (showing : Bool) : ScopedResult :=
  if showing then scopedRemove reg u else ⟨reg, u, [], none⟩

/-- Predicate selecting handler-invocation events. -/
def isHandlerInvoked : Event → Bool
  | .handlerInvoked _ => true
  | _ => false

/-- An observer that returns normally on every entry. -/
def obsOk : BackHandlerEntry → ObsBehavior := fun _ => .ok

/-- An observer that throws on every entry. -/
def obsThrows : BackHandlerEntry → ObsBehavior := fun _ => .throws

/-- Example entry whose handler resolves with no value. -/
def entryA : BackHandlerEntry := ⟨0, .resolves none⟩

/-- Example entry whose handler resolves `true`. -/
def entryB : BackHandlerEntry := ⟨1, .resolves (some true)⟩

/-- Example entry whose handler resolves `false`. -/
def entryF : BackHandlerEntry := ⟨2, .resolves (some false)⟩

/-- Example entry whose handler rejects. -/
def entryR : BackHandlerEntry := ⟨3, .rejects⟩

/-- Options with no observers configured. -/
def optsPlain : BackHandlerOptions := ⟨0, none, none⟩

/-- Options with well-behaved observers configured. -/
def optsObs : BackHandlerOptions := ⟨0, some obsOk, some obsOk⟩

/-- Options whose observers throw. -/
def optsThrow : BackHandlerOptions := ⟨0, some obsThrows, some obsThrows⟩

/-- Initialized registry holding entries A then B. -/
def sAB : BackHandlerState := ⟨[entryA, entryB], some optsObs, true⟩

/-- Initialized registry whose top entry resolves `false`. -/
def sFalse : BackHandlerState := ⟨[entryF], some optsPlain, true⟩

/-- Initialized registry with an empty stack. -/
def sEmpty : BackHandlerState := ⟨[], some optsPlain, true⟩

/-- Initialized registry with observers and three entries. -/
def sObs : BackHandlerState := ⟨[entryA, entryB, entryF], some optsObs, true⟩

/-- An initialized registry holding one entry. -/
def sInitA : BackHandlerState := ⟨[entryA], some optsPlain, true⟩

/-- An uninitialized registry. -/
def sUninit : BackHandlerState := ⟨[], none, false⟩

/-- Initialized registry whose `onRemove` observer throws, with one entry
whose handler resolves with no value. -/
def sThrow : BackHandlerState := ⟨[entryA], some optsThrow, true⟩

/-- A scope owning entry B. -/
def uOwnsB : UseBackHandlerState := ⟨some entryB⟩

theorem stack_ne_nil_of_getLast {s : BackHandlerState} {top : BackHandlerEntry}
    (h : s.stack.getLast? = some top) : s.stack.length ≠ 0 := by
  cases hs : s.stack with
  | nil => rw [hs] at h; simp at h
  | cons a t => simp [hs]

theorem top_getElem {s : BackHandlerState} {top : BackHandlerEntry}
    (h : s.stack.getLast? = some top) :
    s.stack[s.stack.length - 1]? = some top := by
  rw [← List.getLast?_eq_getElem?]
  exact h

theorem remove_not_mem (s : BackHandlerState) (e : BackHandlerEntry)
    (h : e ∉ s.stack) : remove s e = ⟨s, [], none⟩ := by
  have hidx : s.stack.indexOf e = s.stack.length := List.indexOf_eq_length.mpr h
  simp [remove, hidx]

theorem remove_state_stack (s : BackHandlerState) (e : BackHandlerEntry) :
    (remove s e).state.stack = s.stack.erase e := by
  by_cases h : e ∈ s.stack
  · have hidx : s.stack.indexOf e < s.stack.length := List.indexOf_lt_length.mpr h
    simp only [remove, if_pos hidx]
    split
    · exact List.eraseIdx_indexOf_eq_erase e s.stack
    · split
      · exact List.eraseIdx_indexOf_eq_erase e s.stack
      · exact List.eraseIdx_indexOf_eq_erase e s.stack
  · rw [remove_not_mem s e h]
    exact (List.erase_of_not_mem h).symm

theorem remove_events_cases (s : BackHandlerState) (e : BackHandlerEntry) :
    (remove s e).events = [] ∨ (remove s e).events = [.onRemoveCalled e] := by
  simp only [remove]
  split
  · split
    · exact .inl rfl
    · split
      · exact .inl rfl
      · exact .inr rfl
  · exact .inl rfl

theorem onBackPress_top_rejects {s : BackHandlerState} {top : BackHandlerEntry}
    (h : s.stack.getLast? = some top) (hh : top.handler = .rejects) :
    onBackPress s = ⟨s, [.handlerInvoked top], none⟩ := by
  have hne := stack_ne_nil_of_getLast h
  have hidx := top_getElem h
  simp only [onBackPress, if_pos hne, hidx, hh]

theorem onBackPress_top_false {s : BackHandlerState} {top : BackHandlerEntry}
    (h : s.stack.getLast? = some top)
    (hh : top.handler = .resolves (some false)) :
    onBackPress s = ⟨s, [.handlerInvoked top], none⟩ := by
  have hne := stack_ne_nil_of_getLast h
  have hidx := top_getElem h
  simp only [onBackPress, if_pos hne, hidx, hh]
  simp

theorem onBackPress_top_truthy {s : BackHandlerState} {top : BackHandlerEntry}
    {v : Option Bool} (h : s.stack.getLast? = some top)
    (hh : top.handler = .resolves v) (hv : v ≠ some false) :
    onBackPress s =
      ⟨(remove s top).state, .handlerInvoked top :: (remove s top).events,
        none⟩ := by
  have hne := stack_ne_nil_of_getLast h
  have hidx := top_getElem h
  simp only [onBackPress, if_pos hne, hidx, hh, if_pos hv]

/-- C1: when dispatch runs on a non-empty stack, only the top entry's handler
(index `length - 1` at invocation time) is invoked, and whenever its result
resolves to anything other than `false`, that entry is removed through exactly
the removal path of `remove(entry)` (same resulting state and same emitted
events, so `onRemove` fires when configured). -/
theorem dispatch_invokes_only_top_and_removes_via_remove_path
    (s : BackHandlerState) (top : BackHandlerEntry)
    (h : s.stack.getLast? = some top) :
    (onBackPress s).events.filter isHandlerInvoked = [.handlerInvoked top] ∧
    ∀ v : Option Bool, top.handler = .resolves v → v ≠ some false →
      (onBackPress s).state = (remove s top).state ∧
      (onBackPress s).events =
        .handlerInvoked top :: (remove s top).events := by
  constructor
  · cases hh : top.handler with
    | rejects =>
      rw [onBackPress_top_rejects h hh]
      simp [isHandlerInvoked]
    | resolves v =>
      by_cases hv : v = some false
      · subst hv
        rw [onBackPress_top_false h hh]
        simp [isHandlerInvoked]
      · rw [onBackPress_top_truthy h hh hv]
        rcases remove_events_cases s top with he | he <;>
          simp [he, isHandlerInvoked]
  · intro v hh hv
    rw [onBackPress_top_truthy h hh hv]
    exact ⟨rfl, rfl⟩

/-- C1 witness: push A then B, dispatch with B's handler resolving `true`:
B is removed via the `remove` path and A remains on top. -/
theorem dispatch_invokes_only_top_witness :
    sAB.stack.getLast? = some entryB ∧
    ((onBackPress sAB).state = (remove sAB entryB).state ∧
      (onBackPress sAB).events =
        .handlerInvoked entryB :: (remove sAB entryB).events) ∧
    (onBackPress sAB).state.stack = [entryA] :=
  ⟨rfl,
    (dispatch_invokes_only_top_and_removes_via_remove_path sAB entryB
      rfl).2 (some true) rfl (by decide),
    rfl⟩

/-- C2: dispatch on a non-empty stack whose top handler resolves `false` or
rejects keeps the whole state unchanged (so the top entry is kept), does not
invoke the fallback, and surfaces no error: the dispatch call resolves. -/
theorem dispatch_false_or_reject_keeps_entry
    (s : BackHandlerState) (top : BackHandlerEntry)
    (h : s.stack.getLast? = some top)
    (hh : top.handler = .resolves (some false) ∨ top.handler = .rejects) :
    (onBackPress s).state = s ∧
    (onBackPress s).error = none ∧
    Event.fallbackCalled ∉ (onBackPress s).events := by
  rcases hh with hh | hh
  · rw [onBackPress_top_false h hh]
    exact ⟨rfl, rfl, by simp⟩
  · rw [onBackPress_top_rejects h hh]
    exact ⟨rfl, rfl, by simp⟩

/-- C2 witness: a single entry resolving `false` is kept and the dispatch
resolves without error. -/
theorem dispatch_false_or_reject_keeps_entry_witness :
    sFalse.stack.getLast? = some entryF ∧
    (entryF.handler = .resolves (some false) ∨ entryF.handler = .rejects) ∧
    ((onBackPress sFalse).state = sFalse ∧
      (onBackPress sFalse).error = none ∧
      Event.fallbackCalled ∉ (onBackPress sFalse).events) :=
  ⟨rfl, .inl rfl,
    dispatch_false_or_reject_keeps_entry sFalse entryF rfl (.inl rfl)⟩

/-- C3: dispatch on an empty stack of an initialized registry invokes the
fallback exactly once and mutates nothing; dispatch on a non-empty stack
never invokes the fallback, whatever the top handler resolves to. -/
theorem dispatch_fallback_iff_empty (s : BackHandlerState) :
    (∀ opts, s.stack = [] → s._options = some opts →
      onBackPress s = ⟨s, [.fallbackCalled], none⟩) ∧
    (s.stack ≠ [] → Event.fallbackCalled ∉ (onBackPress s).events) := by
  constructor
  · intro opts h1 h2
    simp only [onBackPress, h1]
    simp [optionsGet, h2]
  · intro hne
    obtain ⟨top, h⟩ : ∃ top, s.stack.getLast? = some top := by
      cases hs : s.stack with
      | nil => exact absurd hs hne
      | cons a t =>
        exact ⟨(a :: t).getLast (by simp),
          List.getLast?_eq_getLast (a :: t) (by simp)⟩
    cases hh : top.handler with
    | rejects =>
      rw [onBackPress_top_rejects h hh]
      simp
    | resolves v =>
      by_cases hv : v = some false
      · subst hv
        rw [onBackPress_top_false h hh]
        simp
      · rw [onBackPress_top_truthy h hh hv]
        rcases remove_events_cases s top with he | he <;> simp [he]

/-- C3 witness: dispatch on an initialized, empty registry calls the fallback
exactly once and leaves the state untouched. -/
theorem dispatch_fallback_iff_empty_witness :
    sEmpty.stack = [] ∧ sEmpty._options = some optsPlain ∧
    onBackPress sEmpty = ⟨sEmpty, [.fallbackCalled], none⟩ :=
  ⟨rfl, rfl, (dispatch_fallback_iff_empty sEmpty).1 optsPlain rfl rfl⟩

/-- C4: with an `onRemove` observer configured, `remove(entry)` on a stack
containing the entry erases exactly the first occurrence (scanning from the
start), shrinking length and the entry's multiplicity by one, and invokes
`onRemove` with that entry exactly once; on a stack not containing the entry
it is a silent no-op: no mutation, no events, no error. -/
theorem remove_first_match_once_or_silent_noop
    (s : BackHandlerState) (e : BackHandlerEntry) (opts : BackHandlerOptions)
    (f : BackHandlerEntry → ObsBehavior)
    (hopts : s._options = some opts) (hf : opts.onRemove = some f) :
    (e ∈ s.stack →
      (remove s e).state.stack = s.stack.erase e ∧
      (remove s e).state.stack.length + 1 = s.stack.length ∧
      (remove s e).state.stack.count e + 1 = s.stack.count e ∧
      (remove s e).events = [.onRemoveCalled e]) ∧
    (e ∉ s.stack → remove s e = ⟨s, [], none⟩) := by
  refine ⟨?_, remove_not_mem s e⟩
  intro hm
  have hstack := remove_state_stack s e
  refine ⟨hstack, ?_, ?_, ?_⟩
  · rw [hstack, List.length_erase_of_mem hm]
    have := List.length_pos_of_mem hm
    omega
  · rw [hstack, List.count_erase_self]
    have := List.count_pos_iff.mpr hm
    omega
  · have hidx : s.stack.indexOf e < s.stack.length :=
      List.indexOf_lt_length.mpr hm
    simp [remove, if_pos hidx, optionsGet, hopts, hf]

/-- C4 witness: removing the middle entry of a three-entry stack erases that
one occurrence and fires `onRemove` once; the shape facts evaluate. -/
theorem remove_first_match_once_witness :
    sObs._options = some optsObs ∧ optsObs.onRemove = some obsOk ∧
    entryB ∈ sObs.stack ∧
    ((remove sObs entryB).state.stack = sObs.stack.erase entryB ∧
      (remove sObs entryB).state.stack.length + 1 = sObs.stack.length ∧
      (remove sObs entryB).state.stack.count entryB + 1 =
        sObs.stack.count entryB ∧
      (remove sObs entryB).events = [.onRemoveCalled entryB]) :=
  ⟨rfl, rfl, by decide,
    (remove_first_match_once_or_silent_noop sObs entryB optsObs obsOk
      rfl rfl).1 (by decide)⟩

/-- C5: `push` appends unconditionally (so a duplicate push adds a new slot,
raising the entry's multiplicity), and `remove` yields a sublist of the old
stack, so the relative order of the remaining entries is preserved; removing
a middle entry splices it out without reordering the rest. -/
theorem push_appends_remove_preserves_order
    (s : BackHandlerState) (e : BackHandlerEntry) :
    (push s e).state.stack = s.stack ++ [e] ∧
    (push s e).state.stack.count e = s.stack.count e + 1 ∧
    List.Sublist ((remove s e).state.stack) s.stack ∧
    (∀ l1 l2, s.stack = l1 ++ e :: l2 → e ∉ l1 →
      (remove s e).state.stack = l1 ++ l2) := by
  have hpush : (push s e).state.stack = s.stack ++ [e] := by
    simp only [push]
    split
    · rfl
    · split
      · rfl
      · rfl
  refine ⟨hpush, ?_, ?_, ?_⟩
  · rw [hpush]
    simp
  · rw [remove_state_stack]
    exact List.erase_sublist e s.stack
  · intro l1 l2 h1 h2
    rw [remove_state_stack, h1, List.erase_append_right _ h2,
      List.erase_cons_head]

/-- C5 witness: removing the middle of `[A, B, F]` yields `[A, F]`, and
pushing a duplicate of A appends a second slot for it. -/
theorem push_appends_remove_preserves_order_witness :
    sObs.stack = [entryA] ++ entryB :: [entryF] ∧ entryB ∉ [entryA] ∧
    (remove sObs entryB).state.stack = [entryA] ++ [entryF] ∧
    (push sObs entryA).state.stack.count entryA =
      sObs.stack.count entryA + 1 :=
  ⟨rfl, by decide,
    (push_appends_remove_preserves_order sObs entryB).2.2.2 [entryA] [entryF]
      rfl (by decide),
    (push_appends_remove_preserves_order sObs entryA).2.1⟩

/-- C6 counterexample: calling `install` while already initialized does not
warn — it returns immediately with no events at all (`init` is never reached,
so `console.warn` never runs), refuting "init (or install) ... warns". -/
theorem install_reinit_does_not_warn_cex :
    sInitA.isInitialized = true ∧
    install sInitA optsObs = (sInitA, []) ∧
    Event.warned ∉ (install sInitA optsObs).2 :=
  ⟨rfl, rfl, by decide⟩

/-- C6 (amended): re-calling `init` while initialized warns, throws nothing,
and is a strict no-op on the state; re-calling `install` while initialized is
also a non-throwing no-op on the state but returns silently (no warning, and
`bind` is not invoked again). In both cases the previously configured options
object — hence the original fallback — stays in effect. -/
theorem init_warns_install_silent_both_preserve_state
    (s : BackHandlerState) (opts : BackHandlerOptions)
    (h : s.isInitialized = true) :
    init s opts = (s, [.warned]) ∧ install s opts = (s, []) := by
  constructor
  · simp [init, h]
  · simp [install, h]

/-- C6 witness: on a concrete initialized registry, `init` warns and `install`
returns silently; both leave the state (and its options) unchanged. -/
theorem init_warns_install_silent_witness :
    sInitA.isInitialized = true ∧
    (init sInitA optsObs = (sInitA, [.warned]) ∧
      install sInitA optsObs = (sInitA, [])) :=
  ⟨rfl, init_warns_install_silent_both_preserve_state sInitA optsObs rfl⟩

/-- C7: reading `options` while `_options` is null throws the
not-initialized error; `destroy` unconditionally resets the stack, options
and flag, is idempotent, and `options` throws again after it. -/
theorem options_fatal_uninit_destroy_idempotent (s : BackHandlerState) :
    (s._options = none → optionsGet s = .error .notInitialized) ∧
    (destroy s).stack = [] ∧
    (destroy s)._options = none ∧
    (destroy s).isInitialized = false ∧
    destroy (destroy s) = destroy s ∧
    optionsGet (destroy s) = .error .notInitialized := by
  refine ⟨?_, rfl, rfl, rfl, rfl, rfl⟩
  intro h
  simp [optionsGet, h]

/-- C7 witness: on the concrete uninitialized registry the getter throws. -/
theorem options_fatal_uninit_witness :
    sUninit._options = none ∧
    optionsGet sUninit = .error .notInitialized :=
  ⟨rfl, (options_fatal_uninit_destroy_idempotent sUninit).1 rfl⟩

/-- C8: for a scoped binding owning an entry that is on the stack, scope
disposal with the visibility source `true` removes it from the registry
(stack shrinks by one; the local reference clears whenever the removal call
returns normally); with the source `false`, disposal does nothing: registry
and binding are untouched and no event fires. -/
theorem scoped_dispose_removes_iff_showing
    (reg : BackHandlerState) (u : UseBackHandlerState)
    (e : BackHandlerEntry) (hu : u.entry = some e) :
    (e ∈ reg.stack →
      (scopedDispose reg u true).reg.stack = reg.stack.erase e ∧
      (scopedDispose reg u true).reg.stack.length + 1 = reg.stack.length ∧
      ((scopedDispose reg u true).error = none →
        (scopedDispose reg u true).scope.entry = none)) ∧
    ((scopedDispose reg u false).reg = reg ∧
      (scopedDispose reg u false).scope = u ∧
      (scopedDispose reg u false).events = []) := by
  constructor
  · intro hm
    have hd : scopedDispose reg u true =
        ⟨(remove reg e).state,
          if (remove reg e).error = none then ⟨none⟩ else u,
          (remove reg e).events, (remove reg e).error⟩ := by
      simp [scopedDispose, scopedRemove, hu]
    rw [hd]
    refine ⟨remove_state_stack reg e, ?_, ?_⟩
    · rw [remove_state_stack, List.length_erase_of_mem hm]
      have := List.length_pos_of_mem hm
      omega
    · intro he
      show (if (remove reg e).error = none then
        (⟨none⟩ : UseBackHandlerState) else u).entry = none
      rw [if_pos (show (remove reg e).error = none from he)]
  · exact ⟨rfl, rfl, rfl⟩

/-- C8 witness: a binding owning B, with B on the stack of an initialized
registry: disposal while showing removes B (and, the removal returning
normally, clears the local reference); disposal while hidden leaves
everything registered. -/
theorem scoped_dispose_removes_iff_showing_witness :
    uOwnsB.entry = some entryB ∧ entryB ∈ sAB.stack ∧
    ((scopedDispose sAB uOwnsB true).reg.stack = sAB.stack.erase entryB ∧
      (scopedDispose sAB uOwnsB true).reg.stack.length + 1 =
        sAB.stack.length ∧
      ((scopedDispose sAB uOwnsB true).error = none →
        (scopedDispose sAB uOwnsB true).scope.entry = none)) ∧
    ((scopedDispose sAB uOwnsB false).reg = sAB ∧
      (scopedDispose sAB uOwnsB false).scope = uOwnsB ∧
      (scopedDispose sAB uOwnsB false).events = []) :=
  ⟨rfl, by decide,
    (scoped_dispose_removes_iff_showing sAB uOwnsB entryB rfl).1 (by decide),
    (scoped_dispose_removes_iff_showing sAB uOwnsB entryB rfl).2⟩

/-- C9 counterexample: with an `onRemove` observer that throws, a direct
`remove` surfaces the observer's error, but a dispatch that triggers the very
same removal path surfaces no error at all — `onBackPress` wraps the removal
in its `try`/`catch`, so the observer's exception does not propagate to the
registry's caller, refuting "including for removals triggered via dispatch". -/
theorem observer_throw_swallowed_by_dispatch_cex :
    optsThrow.onRemove = some obsThrows ∧
    obsThrows entryA = .throws ∧
    (remove sThrow entryA).error = some .observerError ∧
    (onBackPress sThrow).events =
      [.handlerInvoked entryA, .onRemoveCalled entryA] ∧
    (onBackPress sThrow).error = none :=
  ⟨rfl, rfl, rfl, rfl, rfl⟩

/-- C9 (amended): observers receive the exact affected entry and are invoked
exactly once per mutation; an exception thrown by the observer propagates to
the caller for direct `push`/`remove` calls, but for a removal triggered via
dispatch it is caught by `onBackPress`'s `try`/`catch`, so a dispatch never
surfaces an error on a non-empty stack. -/
theorem observer_exception_direct_vs_dispatch
    (s : BackHandlerState) (e : BackHandlerEntry)
    (opts : BackHandlerOptions)
    (fp fr : BackHandlerEntry → ObsBehavior)
    (hopts : s._options = some opts) :
    (opts.onPush = some fp →
      (push s e).events = [.onPushCalled e] ∧
      ((push s e).error = some .observerError ↔ fp e = .throws)) ∧
    (opts.onRemove = some fr → e ∈ s.stack →
      (remove s e).events = [.onRemoveCalled e] ∧
      ((remove s e).error = some .observerError ↔ fr e = .throws)) ∧
    (∀ top, s.stack.getLast? = some top → (onBackPress s).error = none) := by
  refine ⟨?_, ?_, ?_⟩
  · intro hp
    constructor
    · simp [push, optionsGet, hopts, hp]
    · by_cases ht : fp e = .throws <;> simp [push, optionsGet, hopts, hp, ht]
  · intro hr hm
    have hidx : s.stack.indexOf e < s.stack.length :=
      List.indexOf_lt_length.mpr hm
    constructor
    · simp [remove, if_pos hidx, optionsGet, hopts, hr]
    · by_cases ht : fr e = .throws <;>
        simp [remove, if_pos hidx, optionsGet, hopts, hr, ht]
  · intro top h
    cases hh : top.handler with
    | rejects => rw [onBackPress_top_rejects h hh]
    | resolves v =>
      by_cases hv : v = some false
      · subst hv
        rw [onBackPress_top_false h hh]
      · rw [onBackPress_top_truthy h hh hv]

/-- C9 witness: with throwing observers configured, a direct push and a
direct remove both surface the observer error, while a dispatch on the same
registry surfaces none. -/
theorem observer_exception_direct_vs_dispatch_witness :
    sThrow._options = some optsThrow ∧
    optsThrow.onPush = some obsThrows ∧
    optsThrow.onRemove = some obsThrows ∧ entryA ∈ sThrow.stack ∧
    ((push sThrow entryA).events = [.onPushCalled entryA] ∧
      ((push sThrow entryA).error = some .observerError ↔
        obsThrows entryA = .throws)) ∧
    ((remove sThrow entryA).events = [.onRemoveCalled entryA] ∧
      ((remove sThrow entryA).error = some .observerError ↔
        obsThrows entryA = .throws)) ∧
    (onBackPress sThrow).error = none :=
  ⟨rfl, rfl, rfl, by decide,
    (observer_exception_direct_vs_dispatch sThrow entryA optsThrow obsThrows
      obsThrows rfl).1 rfl,
    (observer_exception_direct_vs_dispatch sThrow entryA optsThrow obsThrows
      obsThrows rfl).2.1 rfl (by decide),
    (observer_exception_direct_vs_dispatch sThrow entryA optsThrow obsThrows
      obsThrows rfl).2.2 entryA rfl⟩

/-- C10: `push` on an uninitialized registry (null `_options`) appends the
entry to the stack first and only then hits the throwing `options` getter:
the call fails with the not-initialized error, yet the stack is mutated. -/
theorem push_uninitialized_mutates_then_throws
    (s : BackHandlerState) (e : BackHandlerEntry)
    (h : s._options = none) :
    (push s e).state.stack = s.stack ++ [e] ∧
    (push s e).error = some .notInitialized := by
  constructor <;> simp [push, optionsGet, h]

/-- C10 witness: pushing onto the concrete uninitialized registry both
mutates the stack and throws. -/
theorem push_uninitialized_mutates_then_throws_witness :
    sUninit._options = none ∧
    ((push sUninit entryA).state.stack = sUninit.stack ++ [entryA] ∧
      (push sUninit entryA).error = some .notInitialized) :=
  ⟨rfl, push_uninitialized_mutates_then_throws sUninit entryA rfl⟩
